import Mathlib

/-!
Verification development for the d2d counter-pick scoring engine.

The definitions below are a shallow embedding of the TypeScript sources:
the new scoring engine and role filter of frontend/src/pages/DraftPage.tsx,
the old scoring engine of frontend_old/src/logic.ts, and the per-patch
matchup loader of the DraftPage useCounterResults effect.  Number-valued
data (winrates, weights) is modelled by the rationals; the transcendental
log-odds transform lands in the reals.
-/

/-- A hero manifest entry, from the Hero type of DraftPage.tsx. -/
structure Hero where
  slug : String
  name : String
  image : String
deriving DecidableEq

/-- One enemy slot, from the EnemyPick type of DraftPage.tsx: an optional
hero and a weight. -/
structure EnemyPick where
  hero : Option Hero
  weight : ℚ
deriving DecidableEq

/-- One matchup entry of a per-hero matchup file, from the MatchupFile type
of DraftPage.tsx. -/
structure Matchup where
  opponent : String
  winrate : ℚ
deriving DecidableEq

/-- A per-hero matchup file, from the MatchupFile type of DraftPage.tsx. -/
structure MatchupFile where
  hero : String
  matchups : List Matchup
deriving DecidableEq

/-- The in-memory matchup dataset of DraftPage.tsx: a JavaScript object
keyed by hero slug whose values are objects keyed by opponent slug holding
winrates.  Objects are modelled as association lists in insertion order;
lookup takes the first binding and assignment overwrites in place. -/
abbrev Dataset := List (String × List (String × ℚ))

/-- First-binding association-list lookup, the model of reading a property
of a JavaScript object. -/
def lookupA {α : Type} : List (String × α) → String → Option α
  | [], _ => none
  | (k, v) :: rest, key => if k = key then some v else lookupA rest key

/-- Property assignment on a JavaScript object: overwrite the binding in
place when the key is present, otherwise append a new binding. -/
def setKey {α : Type} (l : List (String × α)) (key : String) (v : α) :
    List (String × α) :=
  if l.any (fun e => e.1 == key) then
    l.map (fun e => if e.1 == key then (key, v) else e)
  else l ++ [(key, v)]

/-- The clamp helper of DraftPage.tsx and logic.ts. -/
def clamp (x lo hi : ℚ) : ℚ := max lo (min hi x)

/-- The pctToLogOdds helper of DraftPage.tsx: clamp the probability to
the interval from 0.005 to 0.995 and take log-odds. -/
noncomputable def pctToLogOdds (pct : ℚ) : ℝ :=
  let p := clamp (pct / 100) 0.005 0.995
  Real.log ((p : ℝ) / (1 - (p : ℝ)))

/-- The logOddsToPct helper of DraftPage.tsx. -/
noncomputable def logOddsToPct (lo : ℝ) : ℝ :=
  let p := 1 / (1 + Real.exp (-lo))
  100 * p

/-- The selectedEnemySlugs expression of DraftPage.tsx: slugs of the
non-empty slots, with falsy (empty-string) slugs dropped by the
filter(Boolean) call. -/
def selectedEnemySlugs (picks : List EnemyPick) : List String :=
  (picks.filterMap (fun p => p.hero.map Hero.slug)).filter (fun s => !(s == ""))

/-- The enemies list built inside the useCounterResults memo: slug and
weight of each non-empty slot, in slot order. -/
def selectedEnemies (picks : List EnemyPick) : List (String × ℚ) :=
  picks.filterMap (fun p => p.hero.map (fun h => (h.slug, p.weight)))

/-- The perEnemy breakdown accumulated by the useCounterResults loop: one
entry per selected enemy, in order, holding the recorded winrate when a
matchup record exists and the null marker otherwise. -/
def perEnemyOf (oppMap : List (String × ℚ)) (enemies : List (String × ℚ)) :
    List (String × Option ℚ) :=
  enemies.map (fun ew => (ew.1, lookupA oppMap ew.1))

/-- The weightTotal accumulated by the useCounterResults loop: the sum of
the weights of the selected enemies for which a matchup record exists. -/
def weightTotalOf (oppMap : List (String × ℚ)) (enemies : List (String × ℚ)) : ℚ :=
  (enemies.map (fun ew =>
    match lookupA oppMap ew.1 with
    | none => 0
    | some _ => ew.2)).sum

/-- The weightedSum accumulated by the useCounterResults loop: the sum of
weight times log-odds of the recorded winrate over the matched enemies. -/
noncomputable def weightedSumOf (oppMap : List (String × ℚ))
    (enemies : List (String × ℚ)) : ℝ :=
  (enemies.map (fun ew =>
    match lookupA oppMap ew.1 with
    | none => (0 : ℝ)
    | some wr => (ew.2 : ℝ) * pctToLogOdds wr)).sum

/-- The CounterResult record of DraftPage.tsx. -/
structure CounterResult where
  hero : String
  combined : ℝ
  perEnemy : List (String × Option ℚ)

/-- The unsorted candidate accumulation of the useCounterResults memo:
return the empty list when there are no usable enemy slugs, otherwise walk
the dataset entries in order, skip heroes that are selected enemies, skip
heroes whose weightTotal is not positive, and build a CounterResult from
the accumulated sums for every other hero. -/
noncomputable def counterLoop (data : Dataset) (picks : List EnemyPick) :
    List CounterResult :=
  if selectedEnemySlugs picks = [] then []
  else
    data.filterMap (fun entry =>
      if entry.1 ∈ (selectedEnemies picks).map Prod.fst then none
      else if weightTotalOf entry.2 (selectedEnemies picks) ≤ 0 then none
      else some ⟨entry.1,
        logOddsToPct (weightedSumOf entry.2 (selectedEnemies picks) /
          (weightTotalOf entry.2 (selectedEnemies picks) : ℝ)),
        perEnemyOf entry.2 (selectedEnemies picks)⟩)

/-- The full result of the useCounterResults memo of DraftPage.tsx: the
accumulated candidates sorted by combined score, highest first. -/
noncomputable def useCounterResults (data : Dataset) (picks : List EnemyPick) :
    List CounterResult :=
  List.insertionSort (fun a b => b.combined ≤ a.combined) (counterLoop data picks)

/-- One opponent record of the old DataV2 shape, from api.ts of
frontend_old.  The match-count field is called matches in the source; that
word is term syntax in Lean, so it is renamed numMatches here. -/
structure OldRec where
  winrate : ℚ
  numMatches : ℚ
deriving DecidableEq

/-- The per-hero value of the old DataV2 shape, from api.ts of
frontend_old. -/
structure OldHeroData where
  opponents : List (String × OldRec)
  totalMatches : ℚ
deriving DecidableEq

/-- The old DataV2 dataset of frontend_old, an object keyed by hero slug. -/
abbrev DataV2 := List (String × OldHeroData)

/-- The result record pushed by scoreCandidates of frontend_old logic.ts. -/
structure OldResult where
  hero : String
  combined : ℚ
  perEnemy : List (String × Option ℚ)
  matchShare : ℚ
deriving DecidableEq

/-- The scoreCandidates function of frontend_old logic.ts: skip selected
enemies, average clamped raw winrate fractions weighted by the enemy
weights, drop heroes with no matched weight, scale by 100 and sort by the
combined score, highest first. -/
def scoreCandidates (data : DataV2) (enemies : List (String × ℚ)) :
    List OldResult :=
  let enemySet := enemies.map Prod.fst
  let results := data.filterMap (fun entry =>
    if entry.1 ∈ enemySet then none
    else
      let oppMap := entry.2.opponents
      let _totalMatches := max 1 entry.2.totalMatches
      let lsum : ℚ := (enemies.map (fun ew =>
        match lookupA oppMap ew.1 with
        | none => 0
        | some r => ew.2 * clamp (r.winrate / 100) 0 1)).sum
      let wsum : ℚ := (enemies.map (fun ew =>
        match lookupA oppMap ew.1 with
        | none => 0
        | some _ => ew.2)).sum
      if wsum ≤ 0 then none
      else
        let combined01 := lsum / wsum
        some ⟨entry.1, 100 * combined01,
          enemies.map (fun ew => (ew.1, (lookupA oppMap ew.1).map OldRec.winrate)),
          0⟩)
  List.insertionSort (fun a b => b.combined ≤ a.combined) results

/-- The matchup loader of the useCounterResults effect in DraftPage.tsx.
Each element of the input list is the outcome of fetching and parsing one
hero file for the patch: none when the fetch or the parse failed, some
file otherwise.  Failed files are skipped; parsed files are folded into
the dataset object keyed by lowercased hero slug, later files overwriting
earlier ones.  The loader never fails: with zero parseable files the
result is the empty dataset. -/
def loadMatchups (files : List (Option MatchupFile)) : Dataset :=
  files.foldl (fun acc f =>
    match f with
    | none => acc
    | some file =>
        let oppMap := file.matchups.foldl
          (fun m e => setKey m e.opponent.toLower e.winrate) []
        setKey acc file.hero.toLower oppMap) []

/-- The fixed role vocabulary ALL_ROLES of the ResultsTable component of
DraftPage.tsx. -/
def ALL_ROLES : List String := ["carry", "mid", "offlane", "support", "hard support"]

/-- The isFilteringActive predicate of the ResultsTable component: the
selected role list is non-empty and shorter than the full vocabulary. -/
def isFilteringActive (selectedRoles : List String) : Bool :=
  decide (0 < selectedRoles.length) && decide (selectedRoles.length < ALL_ROLES.length)

/-- The displayedResults memo of the ResultsTable component: pass the
results through unchanged unless filtering is active, otherwise keep the
candidates whose known role list is non-empty and meets the selected
roles. -/
def displayedResults (results : List CounterResult)
    (rolesByHero : List (String × List String)) (selectedRoles : List String) :
    List CounterResult :=
  if isFilteringActive selectedRoles = false then results
  else
    results.filter (fun r =>
      let roles := (lookupA rolesByHero r.hero).getD []
      if roles.isEmpty then false
      else roles.any (fun role => selectedRoles.contains role))

/-- Spec-side formulation for claim C8: a candidate passes an active role
filter exactly when its known role list is non-empty and shares a role
with the selected roles. -/
def roleKeep (rolesByHero : List (String × List String))
    (selectedRoles : List String) (heroSlug : String) : Prop :=
  (lookupA rolesByHero heroSlug).getD [] ≠ [] ∧
    ∃ role ∈ (lookupA rolesByHero heroSlug).getD [], role ∈ selectedRoles

instance (rolesByHero : List (String × List String)) (selectedRoles : List String)
    (heroSlug : String) : Decidable (roleKeep rolesByHero selectedRoles heroSlug) := by
  unfold roleKeep
  infer_instance

/-- Spec-side formulation for claim C1: the sum, over the selected enemies
for which the candidate has a matchup record, of weight times the log of
c over one minus c, where c clamps the winrate fraction to the interval
from 0.005 to 0.995.  Written from the words of the spec, to be compared
with the weightedSum accumulated by the engine loop. -/
noncomputable def specWeightedLogOdds (oppMap : List (String × ℚ))
    (enemies : List (String × ℚ)) : ℝ :=
  (enemies.filterMap (fun ew =>
    (lookupA oppMap ew.1).map (fun wr =>
      (ew.2 : ℝ) * Real.log (((max 0.005 (min 0.995 (wr / 100)) : ℚ) : ℝ) /
        (1 - ((max 0.005 (min 0.995 (wr / 100)) : ℚ) : ℝ)))))).sum

/-- Spec-side formulation for claim C1: the sum of the weights of exactly
those selected enemies for which the candidate has a matchup record. -/
def specMatchedWeight (oppMap : List (String × ℚ))
    (enemies : List (String × ℚ)) : ℚ :=
  ((enemies.filter (fun ew => (lookupA oppMap ew.1).isSome)).map Prod.snd).sum

/-- The single-matchup dataset of the worked example in the spec:
juggernaut has winrate 55.0 against axe. -/
def jugData : Dataset := [("juggernaut", [("axe", 55)])]

/-- The enemy picks of the worked example in the spec: the single pick axe
with weight 1.0. -/
def jugPicks : List EnemyPick := [⟨some ⟨"axe", "Axe", "axe.png"⟩, 1⟩]

/-- New-engine dataset for claim C9: candidate c has winrate 90 against a
and 50 against b. -/
def c9NewData : Dataset := [("c", [("a", 90), ("b", 50)])]

/-- New-engine picks for claim C9: enemies a and b, both with weight 1. -/
def c9Picks : List EnemyPick :=
  [⟨some ⟨"a", "A", "a.png"⟩, 1⟩, ⟨some ⟨"b", "B", "b.png"⟩, 1⟩]

/-- The same matchup data as c9NewData in the old DataV2 shape. -/
def c9OldData : DataV2 :=
  [("c", ⟨[("a", ⟨90, 10⟩), ("b", ⟨50, 10⟩)], 20⟩)]

/-- The same enemy selection as c9Picks in the old engine input shape. -/
def c9OldEnemies : List (String × ℚ) := [("a", 1), ("b", 1)]

/-- Dataset for the claim C3 counterexample: heroes a and b each hold a
matchup record against the other. -/
def c3Data : Dataset := [("a", [("b", 55)]), ("b", [("a", 45)])]

/-- Picks for the claim C3 counterexample: enemy a with weight 1 and a
slot holding hero b with weight 0. -/
def c3PicksZero : List EnemyPick :=
  [⟨some ⟨"a", "A", "a.png"⟩, 1⟩, ⟨some ⟨"b", "B", "b.png"⟩, 0⟩]

/-- The same picks with the weight-0 slot emptied instead. -/
def c3PicksEmpty : List EnemyPick :=
  [⟨some ⟨"a", "A", "a.png"⟩, 1⟩, ⟨none, 0⟩]

/-- The single CounterResult produced by the engine on the worked example
dataset jugData with picks jugPicks. -/
noncomputable def resJug : CounterResult :=
  ⟨"juggernaut",
    logOddsToPct (weightedSumOf [("axe", 55)] [("axe", 1)] /
      ((weightTotalOf [("axe", 55)] [("axe", 1)] : ℚ) : ℝ)),
    [("axe", some 55)]⟩

/-- Dataset for the claim C6 witness: juggernaut has a record against axe
while lich has no records at all. -/
def c6Data : Dataset := [("juggernaut", [("axe", 55)]), ("lich", [])]

/-- The single CounterResult produced by the new engine on the claim C9
dataset. -/
noncomputable def resC9 : CounterResult :=
  ⟨"c",
    logOddsToPct (weightedSumOf [("a", 90), ("b", 50)] [("a", 1), ("b", 1)] /
      ((weightTotalOf [("a", 90), ("b", 50)] [("a", 1), ("b", 1)] : ℚ) : ℝ)),
    [("a", some 90), ("b", some 50)]⟩

/- Helper lemmas. -/

theorem lookupA_eq_of_mem_nodup {α : Type} {data : List (String × α)} {k : String}
    {v : α} (hnd : (data.map Prod.fst).Nodup) (hmem : (k, v) ∈ data) :
    lookupA data k = some v := by
  induction data with
  | nil => cases hmem
  | cons e rest ih =>
      simp only [List.map_cons, List.nodup_cons] at hnd
      rcases List.mem_cons.mp hmem with h | h
      · subst h
        simp [lookupA]
      · have hk : e.1 ≠ k := by
          intro he
          exact hnd.1 (he ▸ (List.mem_map_of_mem Prod.fst h))
        obtain ⟨k', v'⟩ := e
        simpa [lookupA, hk] using ih hnd.2 h

theorem value_eq_of_mem_nodup {α : Type} {data : List (String × α)} {k : String}
    {v v' : α} (hnd : (data.map Prod.fst).Nodup) (h1 : (k, v) ∈ data)
    (h2 : (k, v') ∈ data) : v = v' := by
  have e1 := lookupA_eq_of_mem_nodup hnd h1
  have e2 := lookupA_eq_of_mem_nodup hnd h2
  rw [e1] at e2
  exact Option.some.inj e2

theorem mem_counterLoop {data : Dataset} {picks : List EnemyPick}
    {res : CounterResult} :
    res ∈ counterLoop data picks ↔
      selectedEnemySlugs picks ≠ [] ∧ ∃ entry ∈ data,
        entry.1 ∉ (selectedEnemies picks).map Prod.fst ∧
        0 < weightTotalOf entry.2 (selectedEnemies picks) ∧
        res = ⟨entry.1,
          logOddsToPct (weightedSumOf entry.2 (selectedEnemies picks) /
            weightTotalOf entry.2 (selectedEnemies picks)),
          perEnemyOf entry.2 (selectedEnemies picks)⟩ := by
  unfold counterLoop
  by_cases hg : selectedEnemySlugs picks = []
  · simp [hg]
  · simp only [hg, if_false, ne_eq, not_false_eq_true, true_and, List.mem_filterMap]
    constructor
    · rintro ⟨entry, hmem, hf⟩
      refine ⟨entry, hmem, ?_⟩
      by_cases h1 : entry.1 ∈ (selectedEnemies picks).map Prod.fst
      · simp [h1] at hf
      · by_cases h2 : weightTotalOf entry.2 (selectedEnemies picks) ≤ 0
        · simp [h1, h2] at hf
        · simp only [h1, if_false, h2, Option.some.injEq] at hf
          exact ⟨h1, lt_of_not_le h2, hf.symm⟩
    · rintro ⟨entry, hmem, h1, h2, rfl⟩
      refine ⟨entry, hmem, ?_⟩
      simp [h1, not_le.mpr h2]

theorem mem_useCounterResults {data : Dataset} {picks : List EnemyPick}
    {res : CounterResult} :
    res ∈ useCounterResults data picks ↔ res ∈ counterLoop data picks := by
  unfold useCounterResults
  exact List.mem_insertionSort _

theorem weightTotalOf_eq_specMatchedWeight (oppMap : List (String × ℚ))
    (enemies : List (String × ℚ)) :
    weightTotalOf oppMap enemies = specMatchedWeight oppMap enemies := by
  induction enemies with
  | nil => rfl
  | cons ew rest ih =>
      unfold weightTotalOf specMatchedWeight at *
      cases h : lookupA oppMap ew.1 <;>
        simp [List.filter_cons, h, ih]

theorem weightedSumOf_eq_specWeightedLogOdds (oppMap : List (String × ℚ))
    (enemies : List (String × ℚ)) :
    weightedSumOf oppMap enemies = specWeightedLogOdds oppMap enemies := by
  induction enemies with
  | nil => rfl
  | cons ew rest ih =>
      unfold weightedSumOf specWeightedLogOdds at *
      cases h : lookupA oppMap ew.1 with
      | none =>
          simp only [List.map_cons, List.filterMap_cons, h, List.sum_cons,
            Option.map_none']
          rw [ih, zero_add]
      | some wr =>
          simp only [List.map_cons, List.filterMap_cons, h, List.sum_cons,
            Option.map_some']
          rw [ih]
          congr 1

theorem clamp_of_between {x lo hi : ℚ} (h1 : lo ≤ x) (h2 : x ≤ hi) :
    clamp x lo hi = x := by
  unfold clamp
  rw [min_eq_right h2, max_eq_right h1]

theorem logOddsToPct_eq_div (lo : ℝ) :
    logOddsToPct lo = 100 / (1 + Real.exp (-lo)) := by
  unfold logOddsToPct
  rw [mul_one_div]

theorem logOddsToPct_log {a : ℝ} (ha : 0 < a) :
    logOddsToPct (Real.log a) = 100 * (a / (1 + a)) := by
  unfold logOddsToPct
  rw [Real.exp_neg, Real.exp_log ha]
  have h1 : (0 : ℝ) < 1 + a⁻¹ := by positivity
  have h2 : (0 : ℝ) < 1 + a := by positivity
  field_simp
  ring

theorem list_sum_nonpos {l : List ℚ} (h : ∀ x ∈ l, x ≤ 0) : l.sum ≤ 0 := by
  induction l with
  | nil => simp
  | cons x rest ih =>
      rw [List.sum_cons]
      have hx := h x (List.mem_cons_self x rest)
      have hr := ih (fun y hy => h y (List.mem_cons_of_mem x hy))
      linarith

theorem mem_selectedEnemies {picks : List EnemyPick} {p : EnemyPick} {h : Hero}
    (hp : p ∈ picks) (hh : p.hero = some h) :
    (h.slug, p.weight) ∈ selectedEnemies picks := by
  unfold selectedEnemies
  exact List.mem_filterMap.mpr ⟨p, hp, by rw [hh]; rfl⟩

theorem mem_selectedEnemies_inv {picks : List EnemyPick} {ew : String × ℚ}
    (hmem : ew ∈ selectedEnemies picks) :
    ∃ p ∈ picks, ∃ h : Hero, p.hero = some h ∧ ew = (h.slug, p.weight) := by
  unfold selectedEnemies at hmem
  obtain ⟨p, hp, hf⟩ := List.mem_filterMap.mp hmem
  cases hh : p.hero with
  | none => rw [hh] at hf; cases hf
  | some h =>
      rw [hh] at hf
      exact ⟨p, hp, h, hh, (Option.some.inj hf).symm⟩

theorem counterLoop_jug : counterLoop jugData jugPicks = [resJug] := by
  unfold counterLoop jugData jugPicks resJug
  simp +decide [selectedEnemySlugs, selectedEnemies, weightTotalOf, weightedSumOf,
    perEnemyOf, lookupA]

theorem resJug_mem : resJug ∈ useCounterResults jugData jugPicks := by
  rw [mem_useCounterResults, counterLoop_jug]
  exact List.mem_singleton.mpr rfl

theorem counterLoop_c6 : counterLoop c6Data jugPicks = [resJug] := by
  unfold counterLoop c6Data jugPicks resJug
  simp +decide [selectedEnemySlugs, selectedEnemies, weightTotalOf, weightedSumOf,
    perEnemyOf, lookupA]

theorem resJug_mem_c6 : resJug ∈ useCounterResults c6Data jugPicks := by
  rw [mem_useCounterResults, counterLoop_c6]
  exact List.mem_singleton.mpr rfl

theorem resJug_combined : resJug.combined = 55 := by
  have hsum : weightedSumOf [("axe", 55)] [("axe", 1)] = pctToLogOdds 55 := by
    simp [weightedSumOf, lookupA]
  have hwt : weightTotalOf [("axe", 55)] [("axe", 1)] = 1 := by
    simp [weightTotalOf, lookupA]
  have hpct : pctToLogOdds 55 = Real.log (11 / 9) := by
    unfold pctToLogOdds
    rw [clamp_of_between (by norm_num) (by norm_num)]
    show Real.log ((((55 : ℚ) / 100 : ℚ) : ℝ) / (1 - (((55 : ℚ) / 100 : ℚ) : ℝ))) = _
    push_cast
    norm_num
  show logOddsToPct _ = 55
  rw [hsum, hwt, hpct]
  norm_num
  rw [logOddsToPct_log (by norm_num : (0 : ℝ) < 11 / 9)]
  norm_num

theorem useCounterResults_eq_nil_of_nonpos {data : Dataset} {picks : List EnemyPick}
    (hall : ∀ entry ∈ data, weightTotalOf entry.2 (selectedEnemies picks) ≤ 0) :
    useCounterResults data picks = [] := by
  unfold useCounterResults
  suffices hc : counterLoop data picks = [] by rw [hc]; rfl
  unfold counterLoop
  by_cases hg : selectedEnemySlugs picks = []
  · simp [hg]
  · simp only [hg, if_false]
    rw [List.filterMap_eq_nil_iff]
    intro entry hmem
    by_cases h1 : entry.1 ∈ (selectedEnemies picks).map Prod.fst
    · simp [h1]
    · simp [h1, hall entry hmem]

/- Claim theorems. -/

/-- Claim C2: for every matchup dataset and every enemy-pick sequence, no
hero slug selected as an enemy in a non-empty slot ever appears as a
candidate hero in the result sequence of the scoring engine. -/
theorem c2_enemy_never_candidate (data : Dataset) (picks : List EnemyPick)
    (p : EnemyPick) (h : Hero) (hp : p ∈ picks) (hh : p.hero = some h) :
    ∀ res ∈ useCounterResults data picks, res.hero ≠ h.slug := by
  intro res hres
  rw [mem_useCounterResults, mem_counterLoop] at hres
  obtain ⟨-, entry, hmem, hnot, -, heq⟩ := hres
  subst heq
  intro hcontra
  apply hnot
  have h1 : entry.1 = h.slug := hcontra
  rw [h1]
  exact List.mem_map_of_mem Prod.fst (mem_selectedEnemies hp hh)

/-- Witness for claim C2 on the worked example: axe is a selected enemy,
so the returned juggernaut candidate is not axe. -/
theorem c2_witness : resJug.hero ≠ "axe" :=
  c2_enemy_never_candidate jugData jugPicks
    ⟨some ⟨"axe", "Axe", "axe.png"⟩, 1⟩ ⟨"axe", "Axe", "axe.png"⟩
    (List.mem_singleton.mpr rfl) rfl resJug resJug_mem

/-- Claim C6: a hero whose accumulated weightTotal over the selected
enemies is not positive is absent from the result sequence of the scoring
engine. -/
theorem c6_no_weight_no_result (data : Dataset) (picks : List EnemyPick)
    (heroSlug : String) (oppMap : List (String × ℚ))
    (hnd : (data.map Prod.fst).Nodup) (hmem : (heroSlug, oppMap) ∈ data)
    (hwt : weightTotalOf oppMap (selectedEnemies picks) ≤ 0) :
    ∀ res ∈ useCounterResults data picks, res.hero ≠ heroSlug := by
  intro res hres
  rw [mem_useCounterResults, mem_counterLoop] at hres
  obtain ⟨-, entry, hmem2, -, hpos, heq⟩ := hres
  subst heq
  intro hcontra
  have h1 : entry.1 = heroSlug := hcontra
  have h2 : (heroSlug, entry.2) ∈ data := by rw [← h1]; exact hmem2
  have h3 : entry.2 = oppMap := value_eq_of_mem_nodup hnd h2 hmem
  rw [h3] at hpos
  exact absurd hwt (not_le.mpr hpos)

/-- Witness for claim C6: lich has no matchup record against the selected
enemy axe, so the returned candidate is not lich. -/
theorem c6_witness : resJug.hero ≠ "lich" :=
  c6_no_weight_no_result c6Data jugPicks "lich" []
    (by simp [c6Data])
    (by simp [c6Data])
    (by simp [weightTotalOf, selectedEnemies, lookupA])
    resJug resJug_mem_c6

/-- Claim C7: the scoring engine returns the empty sequence, not an error,
when no non-empty slot has weight strictly greater than zero, and likewise
when no hero in the dataset has a matchup record against any selected
enemy. -/
theorem c7_empty_is_normal (data : Dataset) (picks : List EnemyPick) :
    ((∀ p ∈ picks, p.hero = none ∨ p.weight ≤ 0) →
      useCounterResults data picks = []) ∧
    ((∀ entry ∈ data, ∀ ew ∈ selectedEnemies picks, lookupA entry.2 ew.1 = none) →
      useCounterResults data picks = []) := by
  constructor
  · intro hw
    apply useCounterResults_eq_nil_of_nonpos
    intro entry hmem
    apply list_sum_nonpos
    intro x hx
    obtain ⟨ew, hew, hfx⟩ := List.mem_map.mp hx
    obtain ⟨p, hp, hhero, hh, hew2⟩ := mem_selectedEnemies_inv hew
    cases hlk : lookupA entry.2 ew.1 with
    | none => rw [← hfx, hlk]
    | some wr =>
        rw [← hfx, hlk]
        show ew.2 ≤ 0
        rcases hw p hp with hnone | hwle
        · rw [hh] at hnone; cases hnone
        · rw [hew2]; exact hwle
  · intro hlk
    apply useCounterResults_eq_nil_of_nonpos
    intro entry hmem
    apply list_sum_nonpos
    intro x hx
    obtain ⟨ew, hew, hfx⟩ := List.mem_map.mp hx
    rw [← hfx, hlk entry hmem ew hew]

/-- Witness for claim C7: a single zero-weight pick yields the empty
sequence, and a pick with no matchup data in the dataset yields the empty
sequence. -/
theorem c7_witness :
    useCounterResults jugData [⟨some ⟨"axe", "Axe", "axe.png"⟩, 0⟩] = [] ∧
    useCounterResults jugData [⟨some ⟨"lina", "Lina", "lina.png"⟩, 1⟩] = [] :=
  ⟨(c7_empty_is_normal jugData [⟨some ⟨"axe", "Axe", "axe.png"⟩, 0⟩]).1
      (by intro p hp; simp at hp; rw [hp]; right; norm_num),
    (c7_empty_is_normal jugData [⟨some ⟨"lina", "Lina", "lina.png"⟩, 1⟩]).2
      (by intro entry hmem ew hew
          simp [jugData] at hmem
          simp [selectedEnemies] at hew
          subst hmem
          subst hew
          simp +decide [lookupA])⟩

/-- Claim C10: every returned CandidateResult carries a perEnemy breakdown
with exactly one entry per non-empty enemy slot, in pick order, whose
winrate is the recorded winrate when a matchup record exists and the null
marker exactly when the record is absent. -/
theorem c10_perEnemy (data : Dataset) (picks : List EnemyPick) :
    ∀ res ∈ useCounterResults data picks, ∃ oppMap,
      (res.hero, oppMap) ∈ data ∧
      res.perEnemy =
        (selectedEnemies picks).map (fun ew => (ew.1, lookupA oppMap ew.1)) ∧
      ∀ pe ∈ res.perEnemy,
        (pe.2 = none ↔ lookupA oppMap pe.1 = none) ∧
        ∀ wr, pe.2 = some wr → lookupA oppMap pe.1 = some wr := by
  intro res hres
  rw [mem_useCounterResults, mem_counterLoop] at hres
  obtain ⟨-, entry, hmem, -, -, heq⟩ := hres
  subst heq
  refine ⟨entry.2, hmem, rfl, ?_⟩
  intro pe hpe
  simp only [perEnemyOf] at hpe
  obtain ⟨ew, hew, hpe2⟩ := List.mem_map.mp hpe
  rw [← hpe2]
  exact ⟨Iff.rfl, fun wr hwr => hwr⟩

/-- Witness for claim C10 on the worked example result. -/
theorem c10_witness :
    ∃ oppMap, (resJug.hero, oppMap) ∈ jugData ∧
      resJug.perEnemy =
        (selectedEnemies jugPicks).map (fun ew => (ew.1, lookupA oppMap ew.1)) ∧
      ∀ pe ∈ resJug.perEnemy,
        (pe.2 = none ↔ lookupA oppMap pe.1 = none) ∧
        ∀ wr, pe.2 = some wr → lookupA oppMap pe.1 = some wr :=
  c10_perEnemy jugData jugPicks resJug resJug_mem

/-- Claim C1: every candidate returned by the scoring engine has a
combined score equal to 100 over one plus the exponential of the negated
weighted average of clamped log-odds over the enemies it has data for,
and on the worked example dataset juggernaut scores exactly 55. -/
theorem c1_combined_formula :
    (∀ (data : Dataset) (picks : List EnemyPick) (res : CounterResult),
      res ∈ useCounterResults data picks →
      ∃ oppMap, (res.hero, oppMap) ∈ data ∧
        0 < specMatchedWeight oppMap (selectedEnemies picks) ∧
        res.combined = 100 / (1 + Real.exp
          (-(specWeightedLogOdds oppMap (selectedEnemies picks) /
             (specMatchedWeight oppMap (selectedEnemies picks) : ℝ))))) ∧
    ∃ res ∈ useCounterResults jugData jugPicks,
      res.hero = "juggernaut" ∧ res.combined = 55 := by
  constructor
  · intro data picks res hres
    rw [mem_useCounterResults, mem_counterLoop] at hres
    obtain ⟨-, entry, hmem, -, hpos, heq⟩ := hres
    subst heq
    refine ⟨entry.2, hmem, ?_, ?_⟩
    · rw [← weightTotalOf_eq_specMatchedWeight]
      exact hpos
    · show logOddsToPct _ = _
      rw [logOddsToPct_eq_div, weightedSumOf_eq_specWeightedLogOdds,
        weightTotalOf_eq_specMatchedWeight]
  · exact ⟨resJug, resJug_mem, rfl, resJug_combined⟩

/-- Witness for claim C1, instantiating the formula at the worked
example. -/
theorem c1_witness :
    ∃ oppMap, (resJug.hero, oppMap) ∈ jugData ∧
      0 < specMatchedWeight oppMap (selectedEnemies jugPicks) ∧
      resJug.combined = 100 / (1 + Real.exp
        (-(specWeightedLogOdds oppMap (selectedEnemies jugPicks) /
           (specMatchedWeight oppMap (selectedEnemies jugPicks) : ℝ)))) :=
  c1_combined_formula.1 jugData jugPicks resJug resJug_mem

theorem counterLoop_c9 : counterLoop c9NewData c9Picks = [resC9] := by
  unfold counterLoop c9NewData c9Picks resC9
  simp +decide [selectedEnemySlugs, selectedEnemies, weightTotalOf, weightedSumOf,
    perEnemyOf, lookupA]

theorem resC9_mem : resC9 ∈ useCounterResults c9NewData c9Picks := by
  rw [mem_useCounterResults, counterLoop_c9]
  exact List.mem_singleton.mpr rfl

theorem pct90_eq : pctToLogOdds 90 = Real.log 9 := by
  unfold pctToLogOdds
  rw [clamp_of_between (by norm_num) (by norm_num)]
  show Real.log ((((90 : ℚ) / 100 : ℚ) : ℝ) / (1 - (((90 : ℚ) / 100 : ℚ) : ℝ))) = _
  push_cast
  norm_num

theorem pct50_eq : pctToLogOdds 50 = 0 := by
  unfold pctToLogOdds
  rw [clamp_of_between (by norm_num) (by norm_num)]
  show Real.log ((((50 : ℚ) / 100 : ℚ) : ℝ) / (1 - (((50 : ℚ) / 100 : ℚ) : ℝ))) = _
  push_cast
  norm_num

theorem resC9_combined : resC9.combined = 75 := by
  have hsum : weightedSumOf [("a", 90), ("b", 50)] [("a", 1), ("b", 1)] =
      pctToLogOdds 90 + pctToLogOdds 50 := by
    simp +decide [weightedSumOf, lookupA]
  have hwt : weightTotalOf [("a", 90), ("b", 50)] [("a", 1), ("b", 1)] = 2 := by
    simp +decide [weightTotalOf, lookupA]
    norm_num
  show logOddsToPct _ = 75
  rw [hsum, hwt, pct90_eq, pct50_eq, add_zero]
  have h9 : (9 : ℝ) = 3 ^ (2 : ℕ) := by norm_num
  rw [h9, Real.log_pow]
  push_cast
  have harg : (2 : ℝ) * Real.log 3 / 2 = Real.log 3 := by ring
  rw [harg, logOddsToPct_log (by norm_num : (0 : ℝ) < 3)]
  norm_num

theorem scoreCandidates_c9_mem :
    (⟨"c", 70, [("a", some 90), ("b", some 50)], 0⟩ : OldResult) ∈
      scoreCandidates c9OldData c9OldEnemies := by
  unfold scoreCandidates c9OldData c9OldEnemies
  rw [List.mem_insertionSort]
  apply List.mem_filterMap.mpr
  refine ⟨("c", ⟨[("a", ⟨90, 10⟩), ("b", ⟨50, 10⟩)], 20⟩),
    List.mem_singleton.mpr rfl, ?_⟩
  simp +decide [lookupA, clamp]
  norm_num

/-- Claim C9: the two parallel scoring implementations disagree: on the
same matchup data with enemies a and b at weight 1, candidate c scores 75
in the log-odds engine of DraftPage.tsx and 70 in the raw-percentage
engine of logic.ts. -/
theorem c9_two_engines_differ :
    ∃ resN ∈ useCounterResults c9NewData c9Picks,
      ∃ resO ∈ scoreCandidates c9OldData c9OldEnemies,
        resN.hero = resO.hero ∧ resN.combined = 75 ∧ resO.combined = 70 ∧
        resN.combined ≠ ((resO.combined : ℚ) : ℝ) := by
  refine ⟨resC9, resC9_mem,
    ⟨"c", 70, [("a", some 90), ("b", some 50)], 0⟩, scoreCandidates_c9_mem,
    rfl, resC9_combined, rfl, ?_⟩
  rw [resC9_combined]
  norm_num

/-- Claim C5: when hero H has a matchup record against enemy A (weight 1)
but none against enemy B (weight 1), H is a candidate in both runs and its
combined score with both A and B selected equals its combined score with
only A selected. -/
theorem c5_missing_data_renormalization (data : Dataset) (H : String)
    (oppMap : List (String × ℚ)) (A B : Hero) (wrA : ℚ)
    (hnd : (data.map Prod.fst).Nodup) (hmem : (H, oppMap) ∈ data)
    (hA : lookupA oppMap A.slug = some wrA) (hB : lookupA oppMap B.slug = none)
    (hHA : H ≠ A.slug) (hHB : H ≠ B.slug) (hA0 : A.slug ≠ "") :
    (∃ res ∈ useCounterResults data [⟨some A, 1⟩, ⟨some B, 1⟩], res.hero = H) ∧
    (∃ res ∈ useCounterResults data [⟨some A, 1⟩], res.hero = H) ∧
    ∀ res1 ∈ useCounterResults data [⟨some A, 1⟩, ⟨some B, 1⟩],
      ∀ res2 ∈ useCounterResults data [⟨some A, 1⟩],
        res1.hero = H → res2.hero = H → res1.combined = res2.combined := by
  have hE1 : selectedEnemies [⟨some A, 1⟩, ⟨some B, 1⟩] =
      [(A.slug, 1), (B.slug, 1)] := rfl
  have hE2 : selectedEnemies [⟨some A, 1⟩] = [(A.slug, 1)] := rfl
  have hwt1 : weightTotalOf oppMap [(A.slug, 1), (B.slug, 1)] = 1 := by
    simp [weightTotalOf, hA, hB]
  have hwt2 : weightTotalOf oppMap [(A.slug, 1)] = 1 := by
    simp [weightTotalOf, hA]
  have hws1 : weightedSumOf oppMap [(A.slug, 1), (B.slug, 1)] =
      pctToLogOdds wrA := by
    simp [weightedSumOf, hA, hB]
  have hws2 : weightedSumOf oppMap [(A.slug, 1)] = pctToLogOdds wrA := by
    simp [weightedSumOf, hA]
  have hmemslug1 : A.slug ∈ selectedEnemySlugs [⟨some A, 1⟩, ⟨some B, 1⟩] := by
    simp [selectedEnemySlugs, hA0]
  have hg1 := List.ne_nil_of_mem hmemslug1
  have hmemslug2 : A.slug ∈ selectedEnemySlugs [⟨some A, 1⟩] := by
    simp [selectedEnemySlugs, hA0]
  have hg2 := List.ne_nil_of_mem hmemslug2
  refine ⟨?_, ?_, ?_⟩
  · refine ⟨⟨H, logOddsToPct
      (weightedSumOf oppMap (selectedEnemies [⟨some A, 1⟩, ⟨some B, 1⟩]) /
        ((weightTotalOf oppMap (selectedEnemies [⟨some A, 1⟩, ⟨some B, 1⟩]) : ℚ) : ℝ)),
      perEnemyOf oppMap (selectedEnemies [⟨some A, 1⟩, ⟨some B, 1⟩])⟩, ?_, rfl⟩
    rw [mem_useCounterResults, mem_counterLoop]
    refine ⟨hg1, (H, oppMap), hmem, ?_, ?_, rfl⟩
    · rw [hE1]; simp [hHA, hHB]
    · rw [hE1, hwt1]; norm_num
  · refine ⟨⟨H, logOddsToPct
      (weightedSumOf oppMap (selectedEnemies [⟨some A, 1⟩]) /
        ((weightTotalOf oppMap (selectedEnemies [⟨some A, 1⟩]) : ℚ) : ℝ)),
      perEnemyOf oppMap (selectedEnemies [⟨some A, 1⟩])⟩, ?_, rfl⟩
    rw [mem_useCounterResults, mem_counterLoop]
    refine ⟨hg2, (H, oppMap), hmem, ?_, ?_, rfl⟩
    · rw [hE2]; simp [hHA]
    · rw [hE2, hwt2]; norm_num
  · intro res1 hres1 res2 hres2 h1H h2H
    rw [mem_useCounterResults, mem_counterLoop] at hres1 hres2
    obtain ⟨-, e1, hm1, -, -, heq1⟩ := hres1
    obtain ⟨-, e2, hm2, -, -, heq2⟩ := hres2
    subst heq1
    subst heq2
    have he1 : e1.1 = H := h1H
    have he2 : e2.1 = H := h2H
    have hv1 : e1.2 = oppMap :=
      value_eq_of_mem_nodup hnd (by rw [← he1]; exact hm1) hmem
    have hv2 : e2.2 = oppMap :=
      value_eq_of_mem_nodup hnd (by rw [← he2]; exact hm2) hmem
    show logOddsToPct _ = logOddsToPct _
    rw [hv1, hv2, hE1, hE2, hwt1, hwt2, hws1, hws2]

/-- Witness for claim C5: juggernaut has a record against axe but none
against bane; its score with axe and bane selected equals its score with
only axe selected. -/
theorem c5_witness :
    (∃ res ∈ useCounterResults jugData
        [⟨some ⟨"axe", "Axe", "axe.png"⟩, 1⟩, ⟨some ⟨"bane", "Bane", "bane.png"⟩, 1⟩],
      res.hero = "juggernaut") ∧
    (∃ res ∈ useCounterResults jugData [⟨some ⟨"axe", "Axe", "axe.png"⟩, 1⟩],
      res.hero = "juggernaut") ∧
    ∀ res1 ∈ useCounterResults jugData
        [⟨some ⟨"axe", "Axe", "axe.png"⟩, 1⟩, ⟨some ⟨"bane", "Bane", "bane.png"⟩, 1⟩],
      ∀ res2 ∈ useCounterResults jugData [⟨some ⟨"axe", "Axe", "axe.png"⟩, 1⟩],
        res1.hero = "juggernaut" → res2.hero = "juggernaut" →
          res1.combined = res2.combined :=
  c5_missing_data_renormalization jugData "juggernaut" [("axe", 55)]
    ⟨"axe", "Axe", "axe.png"⟩ ⟨"bane", "Bane", "bane.png"⟩ 55
    (by simp [jugData]) (by simp [jugData]) rfl rfl
    (by decide) (by decide) (by decide)

/-- Claim C8: the role filter passes results through unchanged when the
selected roles are the full vocabulary or empty, and otherwise keeps, in
input order, exactly the candidates whose known role set is non-empty and
meets the selected roles. -/
theorem c8_role_filter (results : List CounterResult)
    (rolesByHero : List (String × List String)) (selectedRoles : List String)
    (hnd : selectedRoles.Nodup) (hsub : ∀ r ∈ selectedRoles, r ∈ ALL_ROLES) :
    ((∀ r ∈ ALL_ROLES, r ∈ selectedRoles) →
      displayedResults results rolesByHero selectedRoles = results) ∧
    (selectedRoles = [] →
      displayedResults results rolesByHero selectedRoles = results) ∧
    (selectedRoles ≠ [] → ¬(∀ r ∈ ALL_ROLES, r ∈ selectedRoles) →
      displayedResults results rolesByHero selectedRoles =
        results.filter (fun res =>
          decide (roleKeep rolesByHero selectedRoles res.hero)) ∧
      (displayedResults results rolesByHero selectedRoles).Sublist results) := by
  refine ⟨?_, ?_, ?_⟩
  · intro hfull
    have hle : selectedRoles.length ≤ ALL_ROLES.length :=
      (List.subperm_of_subset hnd (fun x hx => hsub x hx)).length_le
    have hge : ALL_ROLES.length ≤ selectedRoles.length :=
      (List.subperm_of_subset (by decide) (fun x hx => hfull x hx)).length_le
    have hlen : selectedRoles.length = ALL_ROLES.length := le_antisymm hle hge
    have hact : isFilteringActive selectedRoles = false := by
      simp [isFilteringActive, hlen]
    simp [displayedResults, hact]
  · intro hempty
    subst hempty
    simp [displayedResults, isFilteringActive]
  · intro hne hnotfull
    push_neg at hnotfull
    obtain ⟨x, hx, hnx⟩ := hnotfull
    have hsubE : selectedRoles ⊆ ALL_ROLES.erase x := by
      intro y hy
      have hyx : y ≠ x := fun he => hnx (he ▸ hy)
      exact (List.mem_erase_of_ne hyx).mpr (hsub y hy)
    have hle4 : selectedRoles.length ≤ (ALL_ROLES.erase x).length :=
      (List.subperm_of_subset hnd hsubE).length_le
    have hlt : selectedRoles.length < ALL_ROLES.length := by
      have herase : (ALL_ROLES.erase x).length = ALL_ROLES.length - 1 :=
        List.length_erase_of_mem hx
      have h5 : ALL_ROLES.length = 5 := rfl
      omega
    have hpos : 0 < selectedRoles.length := List.length_pos.mpr hne
    have hact : isFilteringActive selectedRoles = true := by
      simp [isFilteringActive, hpos, hlt]
    constructor
    · rw [displayedResults, hact]
      simp only [Bool.true_eq_false, if_false]
      apply List.filter_congr
      intro res hres
      cases hroles : (lookupA rolesByHero res.hero).getD [] with
      | nil =>
          have hnk : ¬ roleKeep rolesByHero selectedRoles res.hero := by
            simp [roleKeep, hroles]
          simp [hroles, decide_eq_false hnk]
      | cons r rs =>
          simp only [hroles, List.isEmpty_cons, if_false]
          rw [Bool.eq_iff_iff]
          simp [List.any_eq_true, List.contains_iff_exists_mem_beq, roleKeep, hroles]
    · rw [displayedResults, hact]
      simp only [Bool.true_eq_false, if_false]
      exact List.filter_sublist _

/-- Witness for claim C8 with only the carry role selected. -/
theorem c8_witness :
    ((∀ r ∈ ALL_ROLES, r ∈ ["carry"]) →
      displayedResults [] [] ["carry"] = []) ∧
    ((["carry"] : List String) = [] → displayedResults [] [] ["carry"] = []) ∧
    ((["carry"] : List String) ≠ [] → ¬(∀ r ∈ ALL_ROLES, r ∈ ["carry"]) →
      displayedResults [] [] ["carry"] =
        List.filter (fun res => decide (roleKeep [] ["carry"] res.hero)) [] ∧
      (displayedResults [] [] ["carry"]).Sublist []) :=
  c8_role_filter [] [] ["carry"] (by decide) (by decide)

/-- Counterexample for claim C4: with zero parseable hero files the loader
does not fail with a DataUnavailable error: it returns the empty dataset,
and the scoring engine then yields the empty result sequence, the same
shape as any other empty outcome. -/
theorem c4_counterexample :
    loadMatchups [none, none] = ([] : Dataset) ∧
    useCounterResults (loadMatchups [none, none]) jugPicks = [] := by
  constructor
  · rfl
  · rfl

/-- Claim C4 (amended): the loader never fails: a fetch or parse failure
for one hero file is silently skipped, a list with zero parseable files
loads as the empty dataset, and each parseable file is folded into the
dataset under its lowercased hero slug. -/
theorem c4_load_partial :
    (∀ pre post, loadMatchups (pre ++ none :: post) = loadMatchups (pre ++ post)) ∧
    (∀ files : List (Option MatchupFile), (∀ f ∈ files, f = none) →
      loadMatchups files = []) ∧
    (∀ (files : List (Option MatchupFile)) (f : MatchupFile),
      loadMatchups (files ++ [some f]) =
        setKey (loadMatchups files) f.hero.toLower
          (f.matchups.foldl (fun m e => setKey m e.opponent.toLower e.winrate) [])) := by
  refine ⟨?_, ?_, ?_⟩
  · intro pre post
    unfold loadMatchups
    rw [List.foldl_append, List.foldl_append, List.foldl_cons]
  · intro files hall
    induction files with
    | nil => rfl
    | cons f rest ih =>
        have hf : f = none := hall f (List.mem_cons_self f rest)
        subst hf
        show loadMatchups (none :: rest) = []
        unfold loadMatchups
        rw [List.foldl_cons]
        exact ih (fun g hg => hall g (List.mem_cons_of_mem none hg))
  · intro files f
    unfold loadMatchups
    rw [List.foldl_append, List.foldl_cons, List.foldl_nil]

/-- Witness for claim C4: a single failed file loads as the empty
dataset. -/
theorem c4_witness : loadMatchups [none] = ([] : Dataset) :=
  c4_load_partial.2.1 [none] (by simp)

theorem selectedEnemies_append (l1 l2 : List EnemyPick) :
    selectedEnemies (l1 ++ l2) = selectedEnemies l1 ++ selectedEnemies l2 := by
  simp [selectedEnemies]

theorem map_fst_selectedEnemies (picks : List EnemyPick) :
    (selectedEnemies picks).map Prod.fst =
      picks.filterMap (fun p => p.hero.map Hero.slug) := by
  rw [selectedEnemies, List.map_filterMap]
  congr 1
  funext p
  cases p.hero <;> rfl

theorem selectedEnemySlugs_eq_filter (picks : List EnemyPick) :
    selectedEnemySlugs picks =
      ((selectedEnemies picks).map Prod.fst).filter (fun s => !(s == "")) := by
  rw [selectedEnemySlugs, map_fst_selectedEnemies]

theorem weightTotalOf_append (m : List (String × ℚ)) (l1 l2 : List (String × ℚ)) :
    weightTotalOf m (l1 ++ l2) = weightTotalOf m l1 + weightTotalOf m l2 := by
  simp [weightTotalOf]

theorem weightedSumOf_append (m : List (String × ℚ)) (l1 l2 : List (String × ℚ)) :
    weightedSumOf m (l1 ++ l2) = weightedSumOf m l1 + weightedSumOf m l2 := by
  simp [weightedSumOf]

theorem weightTotalOf_insert_zero (m : List (String × ℚ)) (P Q : List (String × ℚ))
    (s : String) :
    weightTotalOf m (P ++ (s, 0) :: Q) = weightTotalOf m (P ++ Q) := by
  rw [weightTotalOf_append, weightTotalOf_append]
  have hmid : weightTotalOf m ((s, 0) :: Q) = weightTotalOf m Q := by
    cases hlk : lookupA m s <;> simp [weightTotalOf, hlk]
  rw [hmid]

theorem weightedSumOf_insert_zero (m : List (String × ℚ)) (P Q : List (String × ℚ))
    (s : String) :
    weightedSumOf m (P ++ (s, 0) :: Q) = weightedSumOf m (P ++ Q) := by
  rw [weightedSumOf_append, weightedSumOf_append]
  have hmid : weightedSumOf m ((s, 0) :: Q) = weightedSumOf m Q := by
    cases hlk : lookupA m s <;> simp [weightedSumOf, hlk]
  rw [hmid]

theorem perEnemyOf_insert (m : List (String × ℚ)) (P Q : List (String × ℚ))
    (s : String) (w : ℚ) :
    perEnemyOf m (P ++ (s, w) :: Q) =
      perEnemyOf m P ++ (s, lookupA m s) :: perEnemyOf m Q := by
  simp [perEnemyOf]

theorem selectedEnemySlugs_nil_iff {picks : List EnemyPick}
    (hs : ∀ p ∈ picks, p.hero.map Hero.slug ≠ some "") :
    (selectedEnemySlugs picks = [] ↔ selectedEnemies picks = []) := by
  have hall : ∀ s ∈ (selectedEnemies picks).map Prod.fst, (!(s == "")) = true := by
    intro s hsmem
    obtain ⟨ew, hew, hfst⟩ := List.mem_map.mp hsmem
    obtain ⟨p, hp, hhero, hh, hew2⟩ := mem_selectedEnemies_inv hew
    have hmap := hs p hp
    rw [hh] at hmap
    simp only [Option.map_some', ne_eq, Option.some.injEq] at hmap
    rw [← hfst, hew2]
    simp [hmap]
  rw [selectedEnemySlugs_eq_filter, List.filter_eq_self.mpr hall,
    List.map_eq_nil_iff]

theorem perEnemyOf_append (m : List (String × ℚ)) (l1 l2 : List (String × ℚ)) :
    perEnemyOf m (l1 ++ l2) = perEnemyOf m l1 ++ perEnemyOf m l2 := by
  simp [perEnemyOf]

theorem perEnemyOf_length (m : List (String × ℚ)) (l : List (String × ℚ)) :
    (perEnemyOf m l).length = l.length := by
  simp [perEnemyOf]

theorem counterLoop_zero_slot (data : Dataset) (pre post : List EnemyPick)
    (h : Hero) (w : ℚ)
    (hnd : (data.map Prod.fst).Nodup)
    (hs : ∀ p ∈ pre ++ post, p.hero.map Hero.slug ≠ some "") :
    counterLoop data (pre ++ ⟨some h, 0⟩ :: post) =
      ((counterLoop data (pre ++ ⟨none, w⟩ :: post)).filter
          (fun r => !(r.hero == h.slug))).map
        (fun r => ⟨r.hero, r.combined,
          r.perEnemy.take (selectedEnemies pre).length ++
            (h.slug, (lookupA data r.hero).bind (fun m => lookupA m h.slug)) ::
              r.perEnemy.drop (selectedEnemies pre).length⟩) := by
  have hE1 : selectedEnemies (pre ++ ⟨some h, 0⟩ :: post) =
      selectedEnemies pre ++ (h.slug, 0) :: selectedEnemies post := by
    rw [selectedEnemies_append]
    rfl
  have hE2 : selectedEnemies (pre ++ ⟨none, w⟩ :: post) =
      selectedEnemies pre ++ selectedEnemies post := by
    rw [selectedEnemies_append]
    rfl
  have hs2 : ∀ p ∈ pre ++ (⟨none, w⟩ :: post),
      p.hero.map Hero.slug ≠ some "" := by
    intro p hp
    rcases List.mem_append.mp hp with hl | hr
    · exact hs p (List.mem_append_left post hl)
    · rcases List.mem_cons.mp hr with he | ht
      · subst he; simp
      · exact hs p (List.mem_append_right pre ht)
  by_cases hq : selectedEnemies pre ++ selectedEnemies post = []
  · obtain ⟨hqp, hqq⟩ := List.append_eq_nil.mp hq
    have hg2 : selectedEnemySlugs (pre ++ ⟨none, w⟩ :: post) = [] :=
      (selectedEnemySlugs_nil_iff hs2).mpr (by rw [hE2]; exact hq)
    have hcl2 : counterLoop data (pre ++ ⟨none, w⟩ :: post) = [] := by
      unfold counterLoop
      rw [if_pos hg2]
    rw [hcl2]
    simp only [List.filter_nil, List.map_nil]
    unfold counterLoop
    by_cases hg1 : selectedEnemySlugs (pre ++ ⟨some h, 0⟩ :: post) = []
    · rw [if_pos hg1]
    · rw [if_neg hg1]
      rw [List.filterMap_eq_nil_iff]
      intro entry hentry
      by_cases hm : entry.1 ∈
          (selectedEnemies (pre ++ ⟨some h, 0⟩ :: post)).map Prod.fst
      · rw [if_pos hm]
      · rw [if_neg hm]
        have hwt0 : weightTotalOf entry.2
            (selectedEnemies (pre ++ ⟨some h, 0⟩ :: post)) ≤ 0 := by
          rw [hE1, hqp, hqq, weightTotalOf_insert_zero]
          simp [weightTotalOf]
        rw [if_pos hwt0]
  · have hS2ne : selectedEnemySlugs (pre ++ ⟨none, w⟩ :: post) ≠ [] := by
      intro hc
      exact hq (by rw [← hE2]; exact (selectedEnemySlugs_nil_iff hs2).mp hc)
    obtain ⟨ew, hew⟩ := List.exists_mem_of_ne_nil _ hq
    have hewne : ew.1 ≠ "" := by
      rcases List.mem_append.mp hew with hl | hr
      · obtain ⟨p, hp, hh, hph, hew2⟩ := mem_selectedEnemies_inv hl
        have hmapne := hs p (List.mem_append_left post hp)
        rw [hph] at hmapne
        simp only [Option.map_some', ne_eq, Option.some.injEq] at hmapne
        rw [hew2]
        exact hmapne
      · obtain ⟨p, hp, hh, hph, hew2⟩ := mem_selectedEnemies_inv hr
        have hmapne := hs p (List.mem_append_right pre hp)
        rw [hph] at hmapne
        simp only [Option.map_some', ne_eq, Option.some.injEq] at hmapne
        rw [hew2]
        exact hmapne
    have hmem1 : ew.1 ∈ selectedEnemySlugs (pre ++ ⟨some h, 0⟩ :: post) := by
      rw [selectedEnemySlugs_eq_filter, List.mem_filter]
      constructor
      · rw [hE1, List.map_append, List.map_cons]
        rcases List.mem_append.mp hew with hl | hr
        · exact List.mem_append_left _ (List.mem_map_of_mem Prod.fst hl)
        · exact List.mem_append_right _
            (List.mem_cons_of_mem _ (List.mem_map_of_mem Prod.fst hr))
      · simp [hewne]
    have hS1ne := List.ne_nil_of_mem hmem1
    unfold counterLoop
    rw [if_neg hS1ne, if_neg hS2ne, List.filter_filterMap, List.map_filterMap]
    apply List.filterMap_congr
    intro entry hentry
    have hlook : lookupA data entry.1 = some entry.2 :=
      lookupA_eq_of_mem_nodup hnd hentry
    rw [hE1, hE2]
    by_cases hk : entry.1 = h.slug
    · have hm1 : entry.1 ∈
          (selectedEnemies pre ++ (h.slug, 0) :: selectedEnemies post).map
            Prod.fst := by
        rw [List.map_append, List.map_cons, hk]
        exact List.mem_append_right _ (List.mem_cons_self _ _)
      rw [if_pos hm1]
      by_cases hm2 : entry.1 ∈
          (selectedEnemies pre ++ selectedEnemies post).map Prod.fst
      · rw [if_pos hm2]; rfl
      · rw [if_neg hm2]
        by_cases hw2 : weightTotalOf entry.2
            (selectedEnemies pre ++ selectedEnemies post) ≤ 0
        · rw [if_pos hw2]; rfl
        · rw [if_neg hw2]
          simp [Option.filter, hk]
    · have hmm : entry.1 ∈
          (selectedEnemies pre ++ (h.slug, 0) :: selectedEnemies post).map
            Prod.fst ↔
          entry.1 ∈ (selectedEnemies pre ++ selectedEnemies post).map Prod.fst := by
        simp [List.mem_append, hk]
      by_cases hm2 : entry.1 ∈
          (selectedEnemies pre ++ selectedEnemies post).map Prod.fst
      · rw [if_pos (hmm.mpr hm2), if_pos hm2]; rfl
      · rw [if_neg (fun hc => hm2 (hmm.mp hc)), if_neg hm2]
        have hwt := weightTotalOf_insert_zero entry.2
          (selectedEnemies pre) (selectedEnemies post) h.slug
        by_cases hw2 : weightTotalOf entry.2
            (selectedEnemies pre ++ selectedEnemies post) ≤ 0
        · rw [if_pos (by rw [hwt]; exact hw2), if_pos hw2]; rfl
        · rw [if_neg (by rw [hwt]; exact hw2), if_neg hw2]
          have hws := weightedSumOf_insert_zero entry.2
            (selectedEnemies pre) (selectedEnemies post) h.slug
          have hpe := perEnemyOf_insert entry.2
            (selectedEnemies pre) (selectedEnemies post) h.slug 0
          simp only [Option.filter]
          rw [if_pos (by simp [hk] : (!(entry.1 == h.slug)) = true)]
          simp only [Option.map_some', Option.some.injEq, CounterResult.mk.injEq,
            true_and]
          constructor
          · rw [hws, hwt]
          · rw [hpe, perEnemyOf_append, hlook]
            have htake : (perEnemyOf entry.2 (selectedEnemies pre) ++
                perEnemyOf entry.2 (selectedEnemies post)).take
                  (selectedEnemies pre).length =
                perEnemyOf entry.2 (selectedEnemies pre) :=
              List.take_left' (perEnemyOf_length _ _)
            have hdrop : (perEnemyOf entry.2 (selectedEnemies pre) ++
                perEnemyOf entry.2 (selectedEnemies post)).drop
                  (selectedEnemies pre).length =
                perEnemyOf entry.2 (selectedEnemies post) :=
              List.drop_left' (perEnemyOf_length _ _)
            rw [htake, hdrop]
            rfl

/-- Counterexample for claim C3: on the dataset where a and b each have a
matchup record against the other, enemy a at weight 1 plus a slot holding
hero b at weight 0 gives a different result than the same sequence with
that slot empty: the weight-0 slot still excludes b from candidacy, so the
first run is empty while the second returns b. -/
theorem c3_counterexample :
    useCounterResults c3Data c3PicksZero ≠ useCounterResults c3Data c3PicksEmpty := by
  have hz : (useCounterResults c3Data c3PicksZero).length = 0 := by
    unfold useCounterResults
    rw [List.length_insertionSort]
    unfold counterLoop c3Data c3PicksZero
    simp +decide [selectedEnemySlugs, selectedEnemies]
  have he : (useCounterResults c3Data c3PicksEmpty).length = 1 := by
    unfold useCounterResults
    rw [List.length_insertionSort]
    unfold counterLoop c3Data c3PicksEmpty
    simp +decide [selectedEnemySlugs, selectedEnemies, weightTotalOf, lookupA]
  intro hc
  rw [hc] at hz
  rw [hz] at he
  exact absurd he (by decide)

/-- Claim C3 (amended): a slot holding hero h with weight 0 is not fully
equivalent to an empty slot: it still excludes h from candidacy and adds a
perEnemy entry for h to every breakdown, but apart from that the two runs
agree: the weight-0 run is, up to the order produced by sorting equal
scores, the empty-slot run with candidate h removed and with an entry for
h inserted at the slot position in each breakdown, combined scores
unchanged. -/
theorem c3_weight0_vs_empty (data : Dataset) (pre post : List EnemyPick)
    (h : Hero) (w : ℚ)
    (hnd : (data.map Prod.fst).Nodup)
    (hs : ∀ p ∈ pre ++ post, p.hero.map Hero.slug ≠ some "") :
    List.Perm
      (useCounterResults data (pre ++ ⟨some h, 0⟩ :: post))
      (((useCounterResults data (pre ++ ⟨none, w⟩ :: post)).filter
          (fun r => !(r.hero == h.slug))).map
        (fun r => ⟨r.hero, r.combined,
          r.perEnemy.take (selectedEnemies pre).length ++
            (h.slug, (lookupA data r.hero).bind (fun m => lookupA m h.slug)) ::
              r.perEnemy.drop (selectedEnemies pre).length⟩)) := by
  have hmain := counterLoop_zero_slot data pre post h w hnd hs
  have h1 : List.Perm (useCounterResults data (pre ++ ⟨some h, 0⟩ :: post))
      (counterLoop data (pre ++ ⟨some h, 0⟩ :: post)) :=
    List.perm_insertionSort _ _
  rw [hmain] at h1
  have h2 : List.Perm
      ((counterLoop data (pre ++ ⟨none, w⟩ :: post)).filter
        (fun r => !(r.hero == h.slug)))
      ((useCounterResults data (pre ++ ⟨none, w⟩ :: post)).filter
        (fun r => !(r.hero == h.slug))) :=
    List.Perm.filter _ (List.perm_insertionSort _ _).symm
  exact h1.trans (h2.map _)

/-- Witness for the amended claim C3 at a concrete dataset and picks. -/
theorem c3_witness :
    List.Perm
      (useCounterResults c3Data
        ([⟨some ⟨"a", "A", "a.png"⟩, 1⟩] ++ ⟨some ⟨"b", "B", "b.png"⟩, 0⟩ :: []))
      (((useCounterResults c3Data
            ([⟨some ⟨"a", "A", "a.png"⟩, 1⟩] ++ ⟨none, 0⟩ :: [])).filter
          (fun r => !(r.hero == (Hero.mk "b" "B" "b.png").slug))).map
        (fun r => ⟨r.hero, r.combined,
          r.perEnemy.take (selectedEnemies [⟨some ⟨"a", "A", "a.png"⟩, 1⟩]).length ++
            ((Hero.mk "b" "B" "b.png").slug,
              (lookupA c3Data r.hero).bind
                (fun m => lookupA m (Hero.mk "b" "B" "b.png").slug)) ::
              r.perEnemy.drop
                (selectedEnemies [⟨some ⟨"a", "A", "a.png"⟩, 1⟩]).length⟩)) :=
  c3_weight0_vs_empty c3Data [⟨some ⟨"a", "A", "a.png"⟩, 1⟩] []
    ⟨"b", "B", "b.png"⟩ 0 (by simp [c3Data]) (by decide)
